import Mathlib

/-!
# Verification of the fivespark-directus-utils monitor hook

Shallow embedding of `src/monitor-hook.ts` (the current version of the module:
the one supporting create/update/delete events, a `monitorFieldsOrOptions`
configuration object, and per-record `hasChanged` helpers).  The stateful
JavaScript hook callbacks are embedded as pure functions that take the
in-memory correlation store (`mutationsInProgress`), the clock value and the
result of the external `itemsService.readMany` call as explicit inputs and
return the updated store together with the lists of handler invocations and
logged warnings.  JavaScript objects are embedded as association lists from
field name to a primitive `Value`; `obj[f]` yields `Option Value` with `none`
playing the role of `undefined`, so the strict (in)equality comparisons
`a[f] !== b[f]` of the source become decidable equality on `Option Value`.
Primary keys are embedded as strings (one Directus collection has one primary
key type, and the dispatch code itself compares keys through their string
conversion `${item.key}` === `${key}`).
-/

/-- A primitive JSON/JavaScript value as stored in a payload field.  `vnull`
models JavaScript `null` (distinct from an absent field, which is `none` at
the `Option Value` level, i.e. `undefined`). -/
inductive Value where
  | vnull : Value
  | vbool : Bool → Value
  | vnum : Int → Value
  | vstr : String → Value
deriving DecidableEq, Repr

/-- String conversion of a value, as used by JavaScript template literals. -/
def valueToString : Value → String
  | .vnull => "null"
  | .vbool b => cond b "true" "false"
  | .vnum n => toString n
  | .vstr s => s

/-- A JavaScript object: an association list from field name to value.
Lookup returns the first binding; the well-formed objects produced by the
source never hold duplicate keys. -/
def Obj : Type := List (String × Value)

instance : DecidableEq Obj := by unfold Obj; infer_instance

/-- `o[f]` — field access; `none` models `undefined`. -/
def Obj.get (o : Obj) (f : String) : Option Value :=
  (List.find? (fun p => decide (p.1 = f)) o).map (fun p => p.2)

/-- `Object.keys(o)` — the field names in insertion order. -/
def Obj.keys (o : Obj) : List String := o.map (fun p => p.1)

/-- `delete o[f]` — removes the binding for `f`. -/
def Obj.erase (o : Obj) (f : String) : Obj :=
  List.filter (fun p => !decide (p.1 = f)) o

/-- Keep only the fields whose name satisfies `q` (used to model loops of the
form `for (field of ...) if (cond) delete o[field]`, whose decisions depend
only on field names and on lookups that the same loop does not change). -/
def Obj.filterKeys (o : Obj) (q : String → Bool) : Obj :=
  List.filter (fun p => q p.1) o

/-- `o[f] = v` — JavaScript assignment: overwrites in place when the field is
present, appends otherwise. -/
def Obj.set (o : Obj) (f : String) (v : Value) : Obj :=
  if (o.get f).isSome then
    List.map (fun p => if p.1 = f then (f, v) else p) o
  else
    List.append o [(f, v)]

/-- `{...a, ...b}` — JavaScript object spread: `b` wins on duplicate field
names.  (The embedding keeps `b`'s winning pairs at the end instead of at
`a`'s original position; no modelled observation depends on pair order, only
on `Obj.get` and on the set of keys.) -/
def Obj.spread (a b : Obj) : Obj :=
  List.append (List.filter (fun p => (b.get p.1).isNone) a) b

/-! ## Event names and keys -/

/-- `meta.event.split('.').pop()` — the last dot-separated segment of an event
name (`"shops.items.update"` ↦ `"update"`).  Implemented over the character
list so that it reduces inside the kernel. -/
def splitChar (c : Char) : List Char → List (List Char)
  | [] => [[]]
  | ch :: rest =>
    match splitChar c rest with
    | [] => [[]]
    | g :: gs => if ch = c then [] :: g :: gs else (ch :: g) :: gs

/-- The event kind suffix of an event name (models
`meta.event.split('.').pop()`). -/
def jsEventName (event : String) : String :=
  ((splitChar '.' event.data).getLastD []).asString

/-- `s.endsWith(suff)`, over character lists. -/
def strEndsWith (s suff : String) : Bool :=
  List.isSuffixOf suff.data s.data

/-! ## Fingerprints (`createFingerprint`) -/

/-- Lexicographic comparison of character lists by code point (the order
JavaScript's default sort comparator induces on strings; identical to the
UTF-16 comparison on the basic multilingual plane). -/
def charListLe : List Char → List Char → Bool
  | [], _ => true
  | _ :: _, [] => false
  | c :: cs, d :: ds =>
    if c.toNat < d.toNat then true
    else if d.toNat < c.toNat then false
    else charListLe cs ds

/-- String comparison used to sort keys. -/
def strLeP (a b : String) : Prop := charListLe a.data b.data = true

instance : DecidableRel strLeP := fun a b => by
  unfold strLeP
  infer_instance

/-- JavaScript `keys.sort()`: the default comparator sorts by string
conversion; on a list of string keys that is the lexicographic sort.  Any
sorting algorithm yields the same result on a total antisymmetric order, so
the embedding uses insertion sort. -/
def jsSortKeys (l : List String) : List String :=
  List.insertionSort strLeP l

/-- The correlation fingerprint.  The source hashes
`JSON.stringify({hookId, event, keys: keys?.sort()})` with md5; the embedding
keeps the hash pre-image itself (equal pre-images give equal hashes, and the
spec treats distinctness of different pre-images as a probabilistic
assumption).  Both call sites pass a present key list, so `keys` is embedded
as a plain list. -/
structure Fingerprint where
  hookId : Nat
  event : String
  keys : List String
deriving DecidableEq, Repr

/-- `createFingerprint(event, keys)` of a registration with id `hookId`. -/
def createFingerprint (hookId : Nat) (event : String) (keys : List String) :
    Fingerprint :=
  ⟨hookId, event, jsSortKeys keys⟩

/-! ## The correlation store (`mutationsInProgress`) -/

/-- One captured item of a pre-commit snapshot: the primary key (as its
string conversion; `none` when the read result lacked the primary key field)
and the remaining captured field data. -/
structure SnapItem where
  key : Option String
  data : Obj
deriving DecidableEq

/-- `${item.key}` — string conversion used by the dispatch lookup
(`undefined` converts to the string `"undefined"`). -/
def snapItemKeyStr (it : SnapItem) : String :=
  it.key.getD "undefined"

/-- A value of `mutationsInProgress[fingerprint]`. -/
structure MutEntry where
  timestamp : Nat
  event : String
  keys : List String
  fields : List String
  current : List SnapItem
deriving DecidableEq

/-- The correlation store `mutationsInProgress`: a JavaScript object keyed by
fingerprint, embedded as an association list in insertion order (JavaScript
objects hold at most one binding per key; theorems that depend on this
uniqueness take it as a `Nodup` hypothesis). -/
def Store : Type := List (Fingerprint × MutEntry)

instance : DecidableEq Store := by unfold Store; infer_instance

/-- `mutationsInProgress[fp]` lookup. -/
def Store.lookupFp (s : Store) (fp : Fingerprint) : Option MutEntry :=
  (List.find? (fun pe => decide (pe.1 = fp)) s).map (fun pe => pe.2)

/-- `mutationsInProgress[fp] = entry`: overwrites in place when present,
appends otherwise. -/
def Store.insertFp (s : Store) (fp : Fingerprint) (e : MutEntry) : Store :=
  if (s.lookupFp fp).isSome then
    List.map (fun pe => if pe.1 = fp then (fp, e) else pe) s
  else
    List.append s [(fp, e)]

/-- `delete mutationsInProgress[fp]`. -/
def Store.eraseFp (s : Store) (fp : Fingerprint) : Store :=
  List.filter (fun pe => !decide (pe.1 = fp)) s

/-- The staleness threshold of the sweep: `1000 * 60 * 5` milliseconds. -/
def FIVE_MINUTES : Nat := 1000 * 60 * 5

/-- The sweep's staleness test on one store binding:
`now - entry.timestamp > FIVE_MINUTES` (truncated subtraction agrees with the
JavaScript comparison, since a negative age is not `> FIVE_MINUTES` either). -/
def staleAt (now : Nat) (pe : Fingerprint × MutEntry) : Bool :=
  decide (now - pe.2.timestamp > FIVE_MINUTES)

/-! ## Registration options -/

/-- The normalized `monitorOptions` a registration computes from
`monitorFieldsOrOptions` (a plain array normalizes to
`{fields, includeUnchanged := false, events := all three, useAccountability := true}`).
`events` only selects which hooks get registered and `useAccountability` only
shapes the accountability handed to the external `readMany`, so neither
occurs in the embedded handlers (the read result is an explicit input). -/
structure MonitorOptions where
  fields : List String
  includeUnchanged : Bool
  events : List String
  useAccountability : Bool

/-- Warnings the hook logs (`logger.warn`). -/
inductive Warning where
  | removedOld (fp : Fingerprint)
  | noMatchingFilter (fp : Fingerprint)
  | fieldAdded (field : String)
deriving DecidableEq, Repr

/-! ## Pre-Commit Capture (the `filter` hook callback) -/

/-- The payload handed to the filter hook: an object of field updates for
update events; for delete events the host passes the array of keys being
removed (the source casts it with `payload as unknown as PrimaryKey[]`). -/
inductive FilterPayload where
  | obj (o : Obj)
  | keysArr (ks : List String)
deriving DecidableEq

/-- `Object.keys(payload)` (for an array, the indices `"0"`, `"1"`, …). -/
def FilterPayload.objKeys : FilterPayload → List String
  | .obj o => o.keys
  | .keysArr ks => (List.range ks.length).map (fun i => toString i)

/-- The payload read as a key array (`payload as unknown as PrimaryKey[]`;
only taken on delete events, whose payload is always the key array). -/
def FilterPayload.asKeys : FilterPayload → List String
  | .obj _ => []
  | .keysArr ks => ks

/-- The `meta` argument of the filter hook. -/
structure FilterMeta where
  event : String
  collection : String
  keys : Option (List String)
  key : Option String

/-- The field list the capture fetches:
`monitorOptions.includeUnchanged || eventName === 'delete' ? monitorOptions.fields
: Object.keys(payload).filter(f => fields.length === 0 || fields.includes(f))`. -/
def captureFields (opts : MonitorOptions) (payload : FilterPayload)
    (meta : FilterMeta) : List String :=
  if opts.includeUnchanged || jsEventName meta.event = "delete" then opts.fields
  else payload.objKeys.filter
    (fun f => opts.fields.isEmpty || opts.fields.contains f)

/-- The affected keys:
`eventName === 'delete' ? payload : (meta.keys ?? [meta.key])`. -/
def captureKeys (payload : FilterPayload) (meta : FilterMeta) : List String :=
  if jsEventName meta.event = "delete" then payload.asKeys
  else meta.keys.getD [meta.key.getD "undefined"]

/-- The fingerprint the capture files its entry under. -/
def captureFp (hookId : Nat) (payload : FilterPayload) (meta : FilterMeta) :
    Fingerprint :=
  createFingerprint hookId meta.event (captureKeys payload meta)

/-- The correlation entry built from a successful `readMany` result: each
returned item is split into its primary key and the remaining data
(`delete data[primaryKeyField]`). -/
def captureEntry (opts : MonitorOptions) (payload : FilterPayload)
    (meta : FilterMeta) (now : Nat) (items : List Obj) (pk : String) :
    MutEntry :=
  { timestamp := now
    event := meta.event
    keys := captureKeys payload meta
    fields := captureFields opts payload meta
    current := items.map (fun item =>
      ⟨(item.get pk).map valueToString, item.erase pk⟩) }

/-- Result of one filter hook invocation: the store afterwards, the warnings
logged, and the error propagated to the host (if any).  JavaScript mutations
performed before a throw persist, so the store is returned in every case. -/
structure FilterResult where
  store : Store
  warnings : List Warning
  error : Option String
deriving DecidableEq

/-- The filter hook callback of `monitor` (the Pre-Commit Capture).  `now` is
`Date.now()` and `readResult` the outcome of the external
`itemsService.readMany` call (`.error` when the read rejects); `pk` is
`schema.collections[collection].primary`. -/
def filterCapture (opts : MonitorOptions) (hookId : Nat)
    (payload : FilterPayload) (meta : FilterMeta) (store : Store) (now : Nat)
    (readResult : Except String (List Obj)) (pk : String) : FilterResult :=
  if strEndsWith meta.event ".items.create" = true then
    -- create events return before doing anything
    ⟨store, [], none⟩
  else if strEndsWith meta.event ".items.update" = false ∧
      strEndsWith meta.event ".items.delete" = false then
    -- `throw new Error(...)` on unexpected events
    ⟨store, [], some ("Unexpected event " ++ meta.event)⟩
  else
    match readResult with
    | .error e => ⟨store, [], some e⟩
    | .ok items =>
      let store1 := store.insertFp (captureFp hookId payload meta)
        (captureEntry opts payload meta now items pk)
      let stale := List.filter (staleAt now) store1
      let store2 := List.filter (fun pe => !staleAt now pe) store1
      ⟨store2, stale.map (fun pe => Warning.removedOld pe.1), none⟩

/-! ## Post-Commit Dispatch (the `action` hook callback) -/

/-- The `meta` argument of the action hook.  For delete events the host's
`payload` is the array of removed keys; spreading an array into an object
(`{...payload}`) yields its index-keyed object form, so the embedding takes
the payload already in object form (`"0" ↦ key₀`, …). -/
structure ActionMeta where
  event : String
  collection : String
  payload : Obj
  key : Option String
  keys : Option (List String)

/-- `meta.keys ?? [meta.key]`. -/
def metaKeysOf (meta : ActionMeta) : List String :=
  meta.keys.getD [meta.key.getD "undefined"]

/-- One Change Record handed to the subscriber.  `hasChanged` is `none` for
create records (the source builds them without the helper and casts). -/
structure ChangeRecord where
  action : String
  key : Option String
  previous : Obj
  current : Obj
  hasChanged : Option (String → Option Value → Option Value → Bool)

/-- The delete-path record built from one snapshot item: captured data as
`previous`, empty `current`, `hasChanged` constantly false. -/
def mkDeleteRecord (m : SnapItem) : ChangeRecord :=
  ⟨"delete", m.key, m.data, [], some (fun _ _ _ => false)⟩

/-- The `hasChanged(field, from, to)` closure of an update record, over the
record's own (already shaken) `previous`/`current`.  A `none` argument models
an omitted (or `undefined`) `from`/`to`. -/
def mkUpdateHasChanged (previous current : Obj) :
    String → Option Value → Option Value → Bool :=
  fun f fr t =>
    (!decide (previous.get f = current.get f)) &&
    (fr.isNone || decide (previous.get f = fr)) &&
    (t.isNone || decide (current.get f = t))

/-- The shake-out test of the update path: a field stays in
`previous`/`current` unless it is unmonitored or (`includeUnchanged` unset)
unchanged. -/
def shakeKeep (opts : MonitorOptions) (previous current : Obj)
    (f : String) : Bool :=
  opts.fields.contains f &&
    (opts.includeUnchanged || !decide (previous.get f = current.get f))

/-- The update record pushed for one key, after the shake-out loop. -/
def mkUpdateRecord (opts : MonitorOptions) (key : String)
    (previous current : Obj) : ChangeRecord :=
  let previous' := previous.filterKeys (shakeKeep opts previous current)
  let current' := current.filterKeys (shakeKeep opts previous current)
  ⟨"update", some key, previous', current',
    some (mkUpdateHasChanged previous' current')⟩

/-- `const current = {...(includeUnchanged ? previous : {}), ...payload}`. -/
def committedCurrent (opts : MonitorOptions) (previous payload : Obj) : Obj :=
  Obj.spread (if opts.includeUnchanged then previous else []) payload

/-- Replace the first snapshot item matching `p` with the same key and new
data `d` (models the in-place mutation of the found item's `data`). -/
def replaceFirst (p : SnapItem → Bool) (d : Obj) :
    List SnapItem → List SnapItem
  | [] => []
  | it :: rest =>
    if p it then ⟨it.key, d⟩ :: rest else it :: replaceFirst p d rest

/-- The per-key loop of the update path.  Returns the accumulated mutations
and `some "TypeError"` when `mutation.current.find(...)` comes back
`undefined` and the unguarded `.data` access throws (in which case the
mutations accumulated so far are discarded by the caller, as the exception
skips the handler call). -/
def updateLoop (opts : MonitorOptions) (payload : Obj) :
    List String → List SnapItem → List ChangeRecord →
    List ChangeRecord × Option String
  | [], _, acc => (acc, none)
  | key :: rest, snap, acc =>
    match List.find? (fun it => decide (snapItemKeyStr it = key)) snap with
    | none => (acc, some "TypeError: cannot read properties of undefined")
    | some item =>
      let previous := item.data
      let current := committedCurrent opts previous payload
      if opts.fields.any
          (fun f => !decide (previous.get f = current.get f)) = true then
        let r := mkUpdateRecord opts key previous current
        let snap' := replaceFirst (fun it => decide (snapItemKeyStr it = key))
          r.previous snap
        updateLoop opts payload rest snap' (List.append acc [r])
      else
        updateLoop opts payload rest snap acc

/-- The reconciled field list of the dispatch:
`includeUnchanged ? monitorOptions.fields
: Object.keys(payload).filter(f => fields.length === 0 || fields.includes(f))`. -/
def dispatchFields (opts : MonitorOptions) (payload : Obj) : List String :=
  if opts.includeUnchanged then opts.fields
  else payload.keys.filter
    (fun f => opts.fields.isEmpty || opts.fields.contains f)

/-- `mutation.fields.filter(f => !fields.includes(f))`. -/
def removedFieldsOf (opts : MonitorOptions) (entry : MutEntry)
    (payload : Obj) : List String :=
  entry.fields.filter (fun f => !(dispatchFields opts payload).contains f)

/-- `fields.filter(f => !mutation.fields.includes(f))`. -/
def addedFieldsOf (opts : MonitorOptions) (entry : MutEntry)
    (payload : Obj) : List String :=
  (dispatchFields opts payload).filter
    (fun f => !entry.fields.contains f)

/-- The snapshot after the reconciliation step deleted the no-longer-updated
fields from every item (`mutation.current.forEach(item => delete
item.data[removedField])`). -/
def shakenSnap (opts : MonitorOptions) (entry : MutEntry) (payload : Obj) :
    List SnapItem :=
  entry.current.map (fun it =>
    ⟨it.key, (removedFieldsOf opts entry payload).foldl
      (fun d f => d.erase f) it.data⟩)

/-- Result of one action hook invocation: the store afterwards, each handler
invocation with its Change Record array (in invocation order), the warnings
logged, and the error escaping the callback (if any).  Handler exceptions are
caught by the source and only logged, so the handler itself is external to
the embedding and only its invocations are recorded. -/
structure ActionResult where
  store : Store
  calls : List (List ChangeRecord)
  warnings : List Warning
  error : Option String

/-- The action hook callback of `monitor` (the Post-Commit Dispatch).
Faithful to the source, the delete shortcut block does not return, so after
its handler call control continues into the update-path reconciliation and
loop. -/
def actionHandler (opts : MonitorOptions) (hookId : Nat) (meta : ActionMeta)
    (store : Store) : ActionResult :=
  if jsEventName meta.event = "create" then
    let current1 := meta.payload.filterKeys (fun k => opts.fields.contains k)
    let current2 := opts.fields.foldl
      (fun cur f => if (cur.get f).isNone then cur.set f Value.vnull else cur)
      current1
    ⟨store, [[⟨"create", meta.key, [], current2, none⟩]], [], none⟩
  else
    let keys := metaKeysOf meta
    let fp := createFingerprint hookId meta.event keys
    match store.lookupFp fp with
    | none => ⟨store, [], [Warning.noMatchingFilter fp], none⟩
    | some entry =>
      let store1 := store.eraseFp fp
      let deleteCalls :=
        if strEndsWith meta.event ".items.delete" = true then
          [entry.current.map mkDeleteRecord]
        else []
      let warns := (addedFieldsOf opts entry meta.payload).map
        Warning.fieldAdded
      let lr := updateLoop opts meta.payload keys
        (shakenSnap opts entry meta.payload) []
      let updCalls :=
        match lr.2 with
        | some _ => []
        | none => if lr.1.isEmpty then [] else [lr.1]
      ⟨store1, List.append deleteCalls updCalls, warns, lr.2⟩

/-! ## Lemmas about sorting and the store -/

theorem Obj.get_nil (f : String) : Obj.get [] f = none := rfl

theorem Obj.get_filterKeys (o : Obj) (q : String → Bool) (f : String) :
    (o.filterKeys q).get f = if q f then o.get f else none := by
  induction o with
  | nil => cases h : q f <;> simp [Obj.filterKeys, Obj.get, h]
  | cons p t ih =>
    obtain ⟨k, v⟩ := p
    by_cases hk : k = f
    · subst hk
      cases h : q k <;> simp [Obj.filterKeys, Obj.get, List.find?, h] at ih ⊢ <;>
        simpa [Obj.filterKeys, Obj.get, h] using ih
    · cases h : q k <;>
        simp [Obj.filterKeys, Obj.get, List.find?, h, hk] at ih ⊢ <;>
        simpa [Obj.filterKeys, Obj.get, h] using ih

theorem Obj.get_append (a b : Obj) (f : String) :
    Obj.get (List.append a b) f = if (a.get f).isSome then a.get f else b.get f := by
  unfold Obj.get
  rw [List.append_eq, List.find?_append]
  cases h : List.find? (fun p => decide (p.1 = f)) a <;> simp [Option.orElse]

theorem Obj.get_spread (a b : Obj) (f : String) :
    (a.spread b).get f = if (b.get f).isSome then b.get f else a.get f := by
  unfold Obj.spread
  rw [show List.filter (fun p => (b.get p.1).isNone) a
      = Obj.filterKeys a (fun k => (b.get k).isNone) from rfl]
  rw [Obj.get_append, Obj.get_filterKeys]
  cases h : b.get f with
  | none =>
    simp [h]
    intro h2
    exact h2.symm
  | some v => simp [h]

theorem char_toNat_inj {c d : Char} (h : c.toNat = d.toNat) : c = d :=
  Char.eq_of_val_eq (UInt32.ext h)

theorem charListLe_total : ∀ a b, charListLe a b = true ∨ charListLe b a = true := by
  intro a
  induction a with
  | nil => intro b; left; rfl
  | cons c cs ih =>
    intro b
    cases b with
    | nil => right; rfl
    | cons d ds =>
      by_cases h1 : c.toNat < d.toNat
      · left; simp [charListLe, h1]
      · by_cases h2 : d.toNat < c.toNat
        · right; simp [charListLe, h1, h2]
        · rcases ih ds with h | h
          · left; simp [charListLe, h1, h2, h]
          · right; simp [charListLe, h1, h2, h]

theorem charListLe_trans : ∀ a b c, charListLe a b = true → charListLe b c = true →
    charListLe a c = true := by
  intro a
  induction a with
  | nil => intro b c _ _; rfl
  | cons x xs ih =>
    intro b c hab hbc
    cases b with
    | nil => simp [charListLe] at hab
    | cons y ys =>
      cases c with
      | nil => simp [charListLe] at hbc
      | cons z zs =>
        simp only [charListLe] at hab hbc ⊢
        by_cases hxy : x.toNat < y.toNat
        · by_cases hyz : y.toNat < z.toNat
          · have hxz : x.toNat < z.toNat := by omega
            simp [hxz]
          · by_cases hzy : z.toNat < y.toNat
            · rw [if_neg hyz, if_pos hzy] at hbc
              exact absurd hbc (by decide)
            · have hxz : x.toNat < z.toNat := by omega
              simp [hxz]
        · rw [if_neg hxy] at hab
          by_cases hyx : y.toNat < x.toNat
          · rw [if_pos hyx] at hab
            exact absurd hab (by decide)
          · rw [if_neg hyx] at hab
            by_cases hyz : y.toNat < z.toNat
            · have hxz : x.toNat < z.toNat := by omega
              simp [hxz]
            · rw [if_neg hyz] at hbc
              by_cases hzy : z.toNat < y.toNat
              · rw [if_pos hzy] at hbc
                exact absurd hbc (by decide)
              · rw [if_neg hzy] at hbc
                have hxz : ¬ x.toNat < z.toNat := by omega
                have hzx : ¬ z.toNat < x.toNat := by omega
                rw [if_neg hxz, if_neg hzx]
                exact ih ys zs hab hbc

theorem charListLe_antisymm : ∀ a b, charListLe a b = true → charListLe b a = true →
    a = b := by
  intro a
  induction a with
  | nil =>
    intro b _ hba
    cases b with
    | nil => rfl
    | cons d ds => simp [charListLe] at hba
  | cons c cs ih =>
    intro b hab hba
    cases b with
    | nil => simp [charListLe] at hab
    | cons d ds =>
      simp only [charListLe] at hab hba
      by_cases h1 : c.toNat < d.toNat <;> by_cases h2 : d.toNat < c.toNat <;>
        simp [h1, h2] at hab hba
      · omega
      · have hc : c = d := char_toNat_inj (by omega)
        rw [hc, ih ds hab hba]

instance : IsTotal String strLeP := ⟨fun a b => charListLe_total a.data b.data⟩

instance : IsTrans String strLeP :=
  ⟨fun a b c => charListLe_trans a.data b.data c.data⟩

instance : IsAntisymm String strLeP :=
  ⟨fun a b hab hba => by
    have h := charListLe_antisymm a.data b.data hab hba
    cases a
    cases b
    exact congrArg String.mk h⟩


theorem jsSortKeys_eq_of_perm {l1 l2 : List String} (h : l1.Perm l2) :
    jsSortKeys l1 = jsSortKeys l2 := by
  unfold jsSortKeys
  exact List.eq_of_perm_of_sorted
    ((List.perm_insertionSort strLeP l1).trans
      (h.trans (List.perm_insertionSort strLeP l2).symm))
    (List.sorted_insertionSort strLeP l1)
    (List.sorted_insertionSort strLeP l2)

theorem Store.lookupFp_eq_none_iff (s : Store) (fp : Fingerprint) :
    s.lookupFp fp = none ↔ fp ∉ s.map Prod.fst := by
  induction s with
  | nil => simp [Store.lookupFp]
  | cons pe t ih =>
    by_cases h : pe.1 = fp
    · simp [Store.lookupFp, List.find?, h]
    · simp only [Store.lookupFp, List.find?] at ih ⊢
      rw [decide_eq_false h]
      simp only [List.map_cons, List.mem_cons]
      constructor
      · intro hn hor
        rcases hor with hor | hor
        · exact h hor.symm
        · exact (ih.mp hn) hor
      · intro hn
        exact ih.mpr (fun hm => hn (Or.inr hm))

theorem Store.lookupFp_filter_none (s : Store) (q : Fingerprint × MutEntry → Bool)
    (fp : Fingerprint) (h : s.lookupFp fp = none) :
    Store.lookupFp (List.filter q s) fp = none := by
  rw [Store.lookupFp_eq_none_iff] at h ⊢
  intro hm
  apply h
  simp only [List.mem_map] at hm ⊢
  obtain ⟨pe, hpe, hfst⟩ := hm
  exact ⟨pe, List.mem_of_mem_filter hpe, hfst⟩

theorem Store.nodup_insertFp (s : Store) (fp : Fingerprint) (e : MutEntry)
    (h : (s.map Prod.fst).Nodup) :
    ((s.insertFp fp e).map Prod.fst).Nodup := by
  unfold Store.insertFp
  by_cases hl : (s.lookupFp fp).isSome
  · rw [if_pos hl]
    have hmm : ∀ (l : List (Fingerprint × MutEntry)),
        (List.map (fun pe => if pe.1 = fp then (fp, e) else pe) l).map Prod.fst
          = l.map Prod.fst := by
      intro l
      induction l with
      | nil => rfl
      | cons pe t ih =>
        simp only [List.map_cons, ih, List.cons.injEq, and_true]
        by_cases hh : pe.1 = fp
        · simp [hh]
        · simp [hh]
    rw [hmm]
    exact h
  · rw [if_neg hl]
    have hnm : fp ∉ s.map Prod.fst := by
      rw [← Store.lookupFp_eq_none_iff]
      cases hc : s.lookupFp fp
      · rfl
      · rw [hc] at hl
        simp at hl
    rw [List.append_eq, List.map_append]
    simp only [List.map_cons, List.map_nil]
    rw [List.nodup_append]
    exact ⟨h, List.nodup_singleton fp, by simpa using hnm⟩

theorem Store.lookupFp_cons_ne (pe : Fingerprint × MutEntry) (t : Store)
    (fp : Fingerprint) (h : pe.1 ≠ fp) :
    Store.lookupFp (pe :: t) fp = Store.lookupFp t fp := by
  simp [Store.lookupFp, List.find?, decide_eq_false h]

theorem Store.lookupFp_sweep (now : Nat) (s : Store)
    (h : (s.map Prod.fst).Nodup) (fp : Fingerprint) (e : MutEntry)
    (hl : s.lookupFp fp = some e) :
    Store.lookupFp (List.filter (fun pe => !staleAt now pe) s) fp
      = if now - e.timestamp > FIVE_MINUTES then none else some e := by
  induction s with
  | nil => simp [Store.lookupFp] at hl
  | cons pe t ih =>
    by_cases hh : pe.1 = fp
    · have hpe : pe.2 = e := by
        simp [Store.lookupFp, List.find?, hh] at hl
        exact hl
      have hnm : fp ∉ t.map Prod.fst := by
        rw [← hh]
        simp only [List.map_cons, List.nodup_cons] at h
        exact h.1
      have ht : Store.lookupFp t fp = none := (Store.lookupFp_eq_none_iff t fp).mpr hnm
      by_cases hstale : now - e.timestamp > FIVE_MINUTES
      · rw [if_pos hstale]
        have : staleAt now pe = true := by
          unfold staleAt
          rw [hpe]
          exact decide_eq_true hstale
        simp only [List.filter_cons, this]
        simp only [Bool.not_true, cond_false]
        exact Store.lookupFp_filter_none t _ fp ht
      · rw [if_neg hstale]
        have : staleAt now pe = false := by
          unfold staleAt
          rw [hpe]
          exact decide_eq_false hstale
        simp only [List.filter_cons, this]
        simp only [Bool.not_false, cond_true]
        simp [Store.lookupFp, List.find?, hh, hpe]
    · have ht : Store.lookupFp t fp = some e := by
        simpa [Store.lookupFp, List.find?, hh] using hl
      have hnd : (t.map Prod.fst).Nodup := by
        simp only [List.map_cons, List.nodup_cons] at h
        exact h.2
      have hrec := ih hnd ht
      cases hq : staleAt now pe
      · simp only [List.filter_cons, hq, Bool.not_false, if_pos]
        rw [Store.lookupFp_cons_ne pe _ fp hh]
        exact hrec
      · simp only [List.filter_cons, hq, Bool.not_true]
        simp only [Bool.false_eq_true, if_false]
        exact hrec

/-! ## Claim theorems -/

/-- C5: the fingerprint function is invariant under permutation of the keys:
for every registration id, event name and key list,
`createFingerprint` gives the same fingerprint on any permutation of the
keys, so capture and dispatch correlate regardless of key order. -/
theorem fingerprint_perm_invariant (hookId : Nat) (event : String)
    (keys keys' : List String) (h : keys.Perm keys') :
    createFingerprint hookId event keys = createFingerprint hookId event keys' := by
  unfold createFingerprint
  rw [jsSortKeys_eq_of_perm h]

/-- Witness for C5 at the spec's own example: keys `[2,1]` against `[1,2]`. -/
theorem fingerprint_perm_invariant_witness :
    List.Perm ["2", "1"] ["1", "2"] ∧
    createFingerprint 0 "shops.items.update" ["2", "1"]
      = createFingerprint 0 "shops.items.update" ["1", "2"] :=
  ⟨by decide,
    fingerprint_perm_invariant 0 "shops.items.update" ["2", "1"] ["1", "2"] (by decide)⟩

/-- C7: an update/delete dispatch whose recomputed fingerprint has no entry
in the correlation store logs exactly one warning and returns: the store is
unchanged, the handler is not invoked, no Change Record is emitted and no
error escapes. -/
theorem dispatch_unmatched_warns_and_skips (opts : MonitorOptions)
    (hookId : Nat) (meta : ActionMeta) (store : Store)
    (hnc : jsEventName meta.event ≠ "create")
    (hlk : store.lookupFp
      (createFingerprint hookId meta.event (metaKeysOf meta)) = none) :
    actionHandler opts hookId meta store
      = ⟨store, [],
          [Warning.noMatchingFilter
            (createFingerprint hookId meta.event (metaKeysOf meta))], none⟩ := by
  simp only [actionHandler, if_neg hnc, hlk]

/-- Witness for C7: an update dispatch against an empty store. -/
theorem dispatch_unmatched_warns_and_skips_witness :
    jsEventName "shops.items.update" ≠ "create" ∧
    Store.lookupFp []
      (createFingerprint 4 "shops.items.update"
        (metaKeysOf ⟨"shops.items.update", "shops", [("a", Value.vnum 1)],
          none, some ["3"]⟩)) = none ∧
    actionHandler ⟨["a"], false, ["create", "update", "delete"], true⟩ 4
      ⟨"shops.items.update", "shops", [("a", Value.vnum 1)], none, some ["3"]⟩ []
      = ⟨[], [],
          [Warning.noMatchingFilter (createFingerprint 4 "shops.items.update" ["3"])],
          none⟩ :=
  ⟨by decide, rfl,
    dispatch_unmatched_warns_and_skips _ 4 _ [] (by decide) rfl⟩

/-- C8: when the `readMany` of the Pre-Commit Capture fails, the failure
propagates to the host (the returned error is the read error) and the
correlation store is unchanged — no entry is inserted and nothing is
logged. -/
theorem capture_read_error_propagates (opts : MonitorOptions) (hookId : Nat)
    (payload : FilterPayload) (meta : FilterMeta) (store : Store) (now : Nat)
    (pk : String) (e : String)
    (hnc : strEndsWith meta.event ".items.create" = false)
    (hud : strEndsWith meta.event ".items.update" = true ∨
      strEndsWith meta.event ".items.delete" = true) :
    filterCapture opts hookId payload meta store now (.error e) pk
      = ⟨store, [], some e⟩ := by
  unfold filterCapture
  rw [if_neg (by simp [hnc]), if_neg (by rcases hud with h | h <;> simp [h])]

/-- Witness for C8: a failing read during an update capture. -/
theorem capture_read_error_propagates_witness :
    strEndsWith "shops.items.update" ".items.create" = false ∧
    (strEndsWith "shops.items.update" ".items.update" = true ∨
      strEndsWith "shops.items.update" ".items.delete" = true) ∧
    filterCapture ⟨["status"], false, ["create", "update", "delete"], true⟩ 5
      (.obj [("status", Value.vstr "x")])
      ⟨"shops.items.update", "shops", some ["1"], none⟩ [] 1000
      (.error "db down") "id"
      = ⟨[], [], some "db down"⟩ :=
  ⟨by decide, Or.inl (by decide),
    capture_read_error_propagates _ 5 _ _ [] 1000 "id" "db down"
      (by decide) (Or.inl (by decide))⟩

/-- C1 (code bug): an empty monitored field set does NOT mean "all fields".
On a create dispatch with `fields = []` every payload field is deleted from
`current` (the guard `monitorOptions.fields.includes(key)` is false for every
key of an empty list), so the delivered Change Record has an empty `current`
instead of the committed payload `{a: 1}`; and on an update dispatch with
`fields = []` the change test `monitorOptions.fields.some(...)` is vacuously
false, so a committed change of `a` from 1 to 2 yields no handler call at
all.  This contradicts the source's own documentation ("Pass empty array to
monitor all fields") and the capture phase, which treats an empty list as
"all payload fields". -/
theorem emptyFields_not_monitor_all :
    (actionHandler ⟨[], false, ["create", "update", "delete"], true⟩ 0
      ⟨"shops.items.create", "shops", [("a", Value.vnum 1)], some "7", none⟩
      []).calls
      = [[⟨"create", some "7", [], [], none⟩]]
    ∧ (actionHandler ⟨[], false, ["create", "update", "delete"], true⟩ 0
      ⟨"shops.items.update", "shops", [("a", Value.vnum 2)], none, some ["7"]⟩
      [(createFingerprint 0 "shops.items.update" ["7"],
        ⟨0, "shops.items.update", ["7"], ["a"],
          [⟨some "7", [("a", Value.vnum 1)]⟩]⟩)]).calls
      = [] :=
  ⟨rfl, rfl⟩

/-- C2 (code bug): a delete dispatch with a matching correlation entry whose
captured snapshot is empty (the pre-commit `readMany` returned no items,
e.g. under restricted read access) invokes the handler once with ZERO Change
Records — the delete block has no empty-array guard, violating "when zero
Change Records result the handler is not invoked at all".  Moreover the
delete block lacks a `return`, so control falls through into the update
path, which here throws the unguarded-lookup TypeError (the error component
is set). -/
theorem delete_empty_snapshot_handler_invoked :
    (actionHandler ⟨["status"], false, ["create", "update", "delete"], true⟩ 0
      ⟨"shops.items.delete", "shops", [("0", Value.vstr "7")], none, some ["7"]⟩
      [(createFingerprint 0 "shops.items.delete" ["7"],
        ⟨0, "shops.items.delete", ["7"], ["status"], []⟩)]).calls = [[]]
    ∧ (actionHandler ⟨["status"], false, ["create", "update", "delete"], true⟩ 0
      ⟨"shops.items.delete", "shops", [("0", Value.vstr "7")], none, some ["7"]⟩
      [(createFingerprint 0 "shops.items.delete" ["7"],
        ⟨0, "shops.items.delete", ["7"], ["status"], []⟩)]).error.isSome = true :=
  ⟨rfl, rfl⟩

/-- Counterexample to C3 as stated: a delete operation whose committed
payload holds two keys (`"1"` and `"2"`) but whose captured snapshot holds a
single item produces ONE Change Record, not one per payload key — the delete
block maps over `mutation.current` (the snapshot), not over the keys — and
that record's `previous` is the captured data as is, here empty rather than
non-empty. -/
theorem delete_record_per_snapshot_not_per_key_cex :
    (metaKeysOf ⟨"shops.items.delete", "shops",
      [("0", Value.vstr "1"), ("1", Value.vstr "2")], none, some ["1", "2"]⟩).length = 2
    ∧ ((actionHandler ⟨["status"], false, ["create", "update", "delete"], true⟩ 0
      ⟨"shops.items.delete", "shops",
        [("0", Value.vstr "1"), ("1", Value.vstr "2")], none, some ["1", "2"]⟩
      [(createFingerprint 0 "shops.items.delete" ["1", "2"],
        ⟨0, "shops.items.delete", ["1", "2"], ["status"],
          [⟨some "1", []⟩]⟩)]).calls.headD []).length
      = 1
    ∧ (((actionHandler ⟨["status"], false, ["create", "update", "delete"], true⟩ 0
      ⟨"shops.items.delete", "shops",
        [("0", Value.vstr "1"), ("1", Value.vstr "2")], none, some ["1", "2"]⟩
      [(createFingerprint 0 "shops.items.delete" ["1", "2"],
        ⟨0, "shops.items.delete", ["1", "2"], ["status"],
          [⟨some "1", []⟩]⟩)]).calls.headD []).head?.map
        (fun r => r.previous)) = some ([] : Obj) :=
  ⟨rfl, rfl, rfl⟩

/-- C3 (amended): for every delete dispatch whose correlation entry is
found, the handler's first (delete-block) invocation carries exactly one
Change Record per item of the captured snapshot — not per key of the
committed payload — each with `action = delete`, `previous` equal to that
item's captured data (which is empty when the captured data was), empty
`current`, and a `hasChanged` that returns false for every field and
arguments. -/
theorem delete_records_from_snapshot (opts : MonitorOptions) (hookId : Nat)
    (meta : ActionMeta) (store : Store) (entry : MutEntry)
    (hnc : jsEventName meta.event ≠ "create")
    (hdel : strEndsWith meta.event ".items.delete" = true)
    (hlk : store.lookupFp
      (createFingerprint hookId meta.event (metaKeysOf meta)) = some entry) :
    (actionHandler opts hookId meta store).calls.head?
      = some (entry.current.map mkDeleteRecord)
    ∧ ∀ m : SnapItem, (mkDeleteRecord m).action = "delete"
      ∧ (mkDeleteRecord m).previous = m.data
      ∧ (mkDeleteRecord m).current = []
      ∧ ∀ f a b, ((mkDeleteRecord m).hasChanged.map (fun g => g f a b))
          = some false := by
  constructor
  · simp only [actionHandler, if_neg hnc, hlk, hdel, if_pos]
    simp [List.append_eq]
  · intro m
    exact ⟨rfl, rfl, rfl, fun f a b => rfl⟩

/-- Witness for C3 (amended): a delete dispatch with a one-item snapshot. -/
theorem delete_records_from_snapshot_witness :
    jsEventName "shops.items.delete" ≠ "create" ∧
    strEndsWith "shops.items.delete" ".items.delete" = true ∧
    ((actionHandler ⟨["status"], false, ["create", "update", "delete"], true⟩ 1
      ⟨"shops.items.delete", "shops", [("0", Value.vstr "9")], none, some ["9"]⟩
      [(createFingerprint 1 "shops.items.delete" ["9"],
        ⟨0, "shops.items.delete", ["9"], ["status"],
          [⟨some "9", [("status", Value.vstr "open")]⟩]⟩)]).calls.head?
      = some ([⟨some "9", [("status", Value.vstr "open")]⟩].map mkDeleteRecord)
    ∧ ∀ m : SnapItem, (mkDeleteRecord m).action = "delete"
      ∧ (mkDeleteRecord m).previous = m.data
      ∧ (mkDeleteRecord m).current = []
      ∧ ∀ f a b, ((mkDeleteRecord m).hasChanged.map (fun g => g f a b))
          = some false) :=
  ⟨by decide, by decide,
    delete_records_from_snapshot
      ⟨["status"], false, ["create", "update", "delete"], true⟩ 1
      ⟨"shops.items.delete", "shops", [("0", Value.vstr "9")], none, some ["9"]⟩
      [(createFingerprint 1 "shops.items.delete" ["9"],
        ⟨0, "shops.items.delete", ["9"], ["status"],
          [⟨some "9", [("status", Value.vstr "open")]⟩]⟩)]
      ⟨0, "shops.items.delete", ["9"], ["status"],
        [⟨some "9", [("status", Value.vstr "open")]⟩]⟩
      (by decide) (by decide) rfl⟩

/-! ## Lemmas about the update-path loop -/

theorem replaceFirst_keyStr (p : SnapItem → Bool) (d : Obj) (l : List SnapItem) :
    (replaceFirst p d l).map snapItemKeyStr = l.map snapItemKeyStr := by
  induction l with
  | nil => rfl
  | cons it rest ih =>
    unfold replaceFirst
    by_cases h : p it = true
    · simp [h, snapItemKeyStr]
    · simp only [Bool.not_eq_true] at h
      simp [h, ih]

theorem shakenSnap_keyStr (opts : MonitorOptions) (entry : MutEntry)
    (payload : Obj) :
    (shakenSnap opts entry payload).map snapItemKeyStr
      = entry.current.map snapItemKeyStr := by
  simp [shakenSnap, snapItemKeyStr, List.map_map, Function.comp]

theorem updateLoop_error_iff (opts : MonitorOptions) (payload : Obj)
    (ks : List String) (snap : List SnapItem) (acc : List ChangeRecord) :
    (updateLoop opts payload ks snap acc).2 = none ↔
      ∀ k ∈ ks, k ∈ snap.map snapItemKeyStr := by
  induction ks generalizing snap acc with
  | nil => simp [updateLoop]
  | cons key rest ih =>
    unfold updateLoop
    cases hf : List.find? (fun it => decide (snapItemKeyStr it = key)) snap with
    | none =>
      have hk : key ∉ snap.map snapItemKeyStr := by
        intro hm
        obtain ⟨it, hit, heq⟩ := List.mem_map.mp hm
        have := List.find?_eq_none.mp hf it hit
        simp [heq] at this
      constructor
      · intro habs
        exact absurd habs (by simp)
      · intro hall
        exact absurd (hall key (List.mem_cons_self key rest)) hk
    | some item =>
      dsimp only
      have hmem : key ∈ snap.map snapItemKeyStr := by
        have h1 := List.mem_of_find?_eq_some hf
        have h2 := List.find?_some hf
        simp only [decide_eq_true_eq] at h2
        exact List.mem_map.mpr ⟨item, h1, h2⟩
      by_cases hch : (opts.fields.any fun f =>
          !decide (item.data.get f
            = (committedCurrent opts item.data payload).get f)) = true
      · rw [if_pos hch, ih, replaceFirst_keyStr]
        rw [List.forall_mem_cons]
        exact ⟨fun h2 => ⟨hmem, h2⟩, fun h2 => h2.2⟩
      · rw [if_neg hch, ih]
        rw [List.forall_mem_cons]
        exact ⟨fun h2 => ⟨hmem, h2⟩, fun h2 => h2.2⟩

/-- C10: an update dispatch with a matching correlation entry finishes
without error exactly when every reported key has a matching item in the
captured snapshot (compared through string conversion); when some key has no
snapshot item, the unguarded `mutation.current.find(...).data` access throws
a TypeError — the handler is not invoked and no warning about the missing
key is logged (the dispatch neither skips the key nor warns). -/
theorem update_dispatch_lookup_total_iff_covered (opts : MonitorOptions)
    (hookId : Nat) (meta : ActionMeta) (store : Store) (entry : MutEntry)
    (hnc : jsEventName meta.event ≠ "create")
    (hnd : strEndsWith meta.event ".items.delete" = false)
    (hlk : store.lookupFp
      (createFingerprint hookId meta.event (metaKeysOf meta)) = some entry) :
    ((actionHandler opts hookId meta store).error = none ↔
      ∀ k ∈ metaKeysOf meta, k ∈ entry.current.map snapItemKeyStr)
    ∧ ((actionHandler opts hookId meta store).error ≠ none →
      (actionHandler opts hookId meta store).calls = []) := by
  simp only [actionHandler, if_neg hnc, hlk, hnd, Bool.false_eq_true, if_false]
  constructor
  · rw [updateLoop_error_iff, shakenSnap_keyStr]
  · intro herr
    cases h2 : (updateLoop opts meta.payload (metaKeysOf meta)
        (shakenSnap opts entry meta.payload) []).2 with
    | none =>
      rw [h2] at herr
      exact absurd rfl herr
    | some err =>
      simp [h2]

/-- Witness for C10: a one-key update whose snapshot covers the key. -/
theorem update_dispatch_lookup_total_iff_covered_witness :
    jsEventName "shops.items.update" ≠ "create" ∧
    strEndsWith "shops.items.update" ".items.delete" = false ∧
    (((actionHandler ⟨["a"], false, ["create", "update", "delete"], true⟩ 2
      ⟨"shops.items.update", "shops", [("a", Value.vnum 2)], none, some ["3"]⟩
      [(createFingerprint 2 "shops.items.update" ["3"],
        ⟨0, "shops.items.update", ["3"], ["a"],
          [⟨some "3", [("a", Value.vnum 1)]⟩]⟩)]).error = none ↔
      ∀ k ∈ metaKeysOf ⟨"shops.items.update", "shops",
          [("a", Value.vnum 2)], none, some ["3"]⟩,
        k ∈ ([⟨some "3", [("a", Value.vnum 1)]⟩] : List SnapItem).map snapItemKeyStr)
    ∧ ((actionHandler ⟨["a"], false, ["create", "update", "delete"], true⟩ 2
      ⟨"shops.items.update", "shops", [("a", Value.vnum 2)], none, some ["3"]⟩
      [(createFingerprint 2 "shops.items.update" ["3"],
        ⟨0, "shops.items.update", ["3"], ["a"],
          [⟨some "3", [("a", Value.vnum 1)]⟩]⟩)]).error ≠ none →
      (actionHandler ⟨["a"], false, ["create", "update", "delete"], true⟩ 2
        ⟨"shops.items.update", "shops", [("a", Value.vnum 2)], none, some ["3"]⟩
        [(createFingerprint 2 "shops.items.update" ["3"],
          ⟨0, "shops.items.update", ["3"], ["a"],
            [⟨some "3", [("a", Value.vnum 1)]⟩]⟩)]).calls = [])) :=
  ⟨by decide, by decide,
    update_dispatch_lookup_total_iff_covered
      ⟨["a"], false, ["create", "update", "delete"], true⟩ 2
      ⟨"shops.items.update", "shops", [("a", Value.vnum 2)], none, some ["3"]⟩
      [(createFingerprint 2 "shops.items.update" ["3"],
        ⟨0, "shops.items.update", ["3"], ["a"],
          [⟨some "3", [("a", Value.vnum 1)]⟩]⟩)]
      ⟨0, "shops.items.update", ["3"], ["a"],
        [⟨some "3", [("a", Value.vnum 1)]⟩]⟩
      (by decide) (by decide) rfl⟩

theorem updateLoop_no_change (opts : MonitorOptions) (payload : Obj)
    (ks : List String) (snap : List SnapItem) (acc : List ChangeRecord)
    (h : ∀ item ∈ snap, ∀ f ∈ opts.fields,
      item.data.get f = (committedCurrent opts item.data payload).get f) :
    (updateLoop opts payload ks snap acc).1 = acc := by
  induction ks generalizing snap acc with
  | nil => rfl
  | cons key rest ih =>
    unfold updateLoop
    cases hf : List.find? (fun it => decide (snapItemKeyStr it = key)) snap with
    | none => rfl
    | some item =>
      dsimp only
      have hch : (opts.fields.any fun f =>
          !decide (item.data.get f
            = (committedCurrent opts item.data payload).get f)) = false := by
        rw [List.any_eq_false]
        intro f hf2
        simp [h item (List.mem_of_find?_eq_some hf) f hf2]
      rw [if_neg (by simp [hch])]
      exact ih snap acc h

theorem updateLoop_mem_shape (opts : MonitorOptions) (payload : Obj)
    (ks : List String) (snap : List SnapItem) (acc : List ChangeRecord) :
    ∀ r ∈ (updateLoop opts payload ks snap acc).1,
      r ∈ acc ∨ ∃ key previous current,
        r = mkUpdateRecord opts key previous current := by
  induction ks generalizing snap acc with
  | nil =>
    intro r hr
    exact Or.inl hr
  | cons key rest ih =>
    unfold updateLoop
    cases hf : List.find? (fun it => decide (snapItemKeyStr it = key)) snap with
    | none =>
      intro r hr
      exact Or.inl hr
    | some item =>
      dsimp only
      by_cases hch : (opts.fields.any fun f =>
          !decide (item.data.get f
            = (committedCurrent opts item.data payload).get f)) = true
      · rw [if_pos hch]
        intro r hr
        rcases ih _ _ r hr with hin | hsh
        · rw [List.append_eq, List.mem_append] at hin
          rcases hin with hin | hin
          · exact Or.inl hin
          · rcases List.mem_singleton.mp hin with rfl
            exact Or.inr ⟨key, item.data,
              committedCurrent opts item.data payload, rfl⟩
        · exact Or.inr hsh
      · rw [if_neg hch]
        exact ih snap acc

theorem mkUpdateRecord_shake (opts : MonitorOptions) (key : String)
    (previous current : Obj) (hincl : opts.includeUnchanged = false)
    (f : String)
    (heq : (mkUpdateRecord opts key previous current).previous.get f
      = (mkUpdateRecord opts key previous current).current.get f) :
    (mkUpdateRecord opts key previous current).previous.get f = none ∧
    (mkUpdateRecord opts key previous current).current.get f = none := by
  have hp : (mkUpdateRecord opts key previous current).previous
      = previous.filterKeys (shakeKeep opts previous current) := rfl
  have hc : (mkUpdateRecord opts key previous current).current
      = current.filterKeys (shakeKeep opts previous current) := rfl
  rw [hp, hc, Obj.get_filterKeys, Obj.get_filterKeys] at heq ⊢
  cases hk : shakeKeep opts previous current f
  · simp [hk]
  · rw [hk] at heq
    simp only [if_true] at heq
    unfold shakeKeep at hk
    rw [hincl] at hk
    simp only [Bool.false_or, Bool.and_eq_true, Bool.not_eq_true',
      decide_eq_false_iff_not] at hk
    exact absurd heq hk.2

/-- C4: for an update dispatch with a matching correlation entry, (a) when
for every snapshot item and every monitored field the captured previous
value equals the committed current value, the handler is never invoked (no
calls at all); and (b) when `includeUnchanged` is unset, every emitted
Change Record has every field whose value did not change absent from both
`previous` and `current` (a field with equal values on both sides can only
be an absent one). -/
theorem update_no_change_no_call_and_shake (opts : MonitorOptions)
    (hookId : Nat) (meta : ActionMeta) (store : Store) (entry : MutEntry)
    (hnc : jsEventName meta.event ≠ "create")
    (hnd : strEndsWith meta.event ".items.delete" = false)
    (hlk : store.lookupFp
      (createFingerprint hookId meta.event (metaKeysOf meta)) = some entry) :
    ((∀ item ∈ shakenSnap opts entry meta.payload, ∀ f ∈ opts.fields,
        item.data.get f
          = (committedCurrent opts item.data meta.payload).get f) →
      (actionHandler opts hookId meta store).calls = [])
    ∧ (opts.includeUnchanged = false →
      ∀ call ∈ (actionHandler opts hookId meta store).calls, ∀ r ∈ call,
        ∀ f : String, r.previous.get f = r.current.get f →
          r.previous.get f = none ∧ r.current.get f = none) := by
  simp only [actionHandler, if_neg hnc, hlk, hnd, Bool.false_eq_true, if_false]
  constructor
  · intro hno
    have hrecs := updateLoop_no_change opts meta.payload (metaKeysOf meta)
      (shakenSnap opts entry meta.payload) [] hno
    cases h2 : (updateLoop opts meta.payload (metaKeysOf meta)
        (shakenSnap opts entry meta.payload) []).2 with
    | none => simp [h2, hrecs]
    | some err => simp [h2]
  · intro hincl call hcall r hr f heq
    revert hcall
    cases h2 : (updateLoop opts meta.payload (metaKeysOf meta)
        (shakenSnap opts entry meta.payload) []).2 with
    | some err =>
      intro hcall
      simp [h2] at hcall
    | none =>
      intro hcall
      simp only [h2, List.append_eq, List.nil_append] at hcall
      by_cases hemp : (updateLoop opts meta.payload (metaKeysOf meta)
          (shakenSnap opts entry meta.payload) []).1.isEmpty
      · simp [hemp] at hcall
      · rw [if_neg (by simp [hemp])] at hcall
        rcases List.mem_singleton.mp hcall with rfl
        rcases updateLoop_mem_shape opts meta.payload (metaKeysOf meta)
            (shakenSnap opts entry meta.payload) [] r hr with hin | hsh
        · exact absurd hin (List.not_mem_nil r)
        · obtain ⟨k, p, c, rfl⟩ := hsh
          exact mkUpdateRecord_shake opts k p c hincl f heq

/-- Witness for C4: an update that writes the same monitored value back
(`status` stays `"x"`), so no handler call results; the shake conclusion is
instantiated at the same dispatch. -/
theorem update_no_change_no_call_and_shake_witness :
    jsEventName "shops.items.update" ≠ "create" ∧
    strEndsWith "shops.items.update" ".items.delete" = false ∧
    (((∀ item ∈ shakenSnap ⟨["status"], false, ["create", "update", "delete"], true⟩
        ⟨0, "shops.items.update", ["8"], ["status"],
          [⟨some "8", [("status", Value.vstr "x")]⟩]⟩
        [("status", Value.vstr "x")],
        ∀ f ∈ (⟨["status"], false, ["create", "update", "delete"], true⟩
          : MonitorOptions).fields,
        item.data.get f
          = (committedCurrent
              ⟨["status"], false, ["create", "update", "delete"], true⟩
              item.data [("status", Value.vstr "x")]).get f) →
      (actionHandler ⟨["status"], false, ["create", "update", "delete"], true⟩ 3
        ⟨"shops.items.update", "shops", [("status", Value.vstr "x")], none,
          some ["8"]⟩
        [(createFingerprint 3 "shops.items.update" ["8"],
          ⟨0, "shops.items.update", ["8"], ["status"],
            [⟨some "8", [("status", Value.vstr "x")]⟩]⟩)]).calls = [])
    ∧ ((⟨["status"], false, ["create", "update", "delete"], true⟩
          : MonitorOptions).includeUnchanged = false →
      ∀ call ∈ (actionHandler
          ⟨["status"], false, ["create", "update", "delete"], true⟩ 3
          ⟨"shops.items.update", "shops", [("status", Value.vstr "x")], none,
            some ["8"]⟩
          [(createFingerprint 3 "shops.items.update" ["8"],
            ⟨0, "shops.items.update", ["8"], ["status"],
              [⟨some "8", [("status", Value.vstr "x")]⟩]⟩)]).calls,
        ∀ r ∈ call, ∀ f : String, r.previous.get f = r.current.get f →
          r.previous.get f = none ∧ r.current.get f = none)) :=
  ⟨by decide, by decide,
    update_no_change_no_call_and_shake
      ⟨["status"], false, ["create", "update", "delete"], true⟩ 3
      ⟨"shops.items.update", "shops", [("status", Value.vstr "x")], none,
        some ["8"]⟩
      [(createFingerprint 3 "shops.items.update" ["8"],
        ⟨0, "shops.items.update", ["8"], ["status"],
          [⟨some "8", [("status", Value.vstr "x")]⟩]⟩)]
      ⟨0, "shops.items.update", ["8"], ["status"],
        [⟨some "8", [("status", Value.vstr "x")]⟩]⟩
      (by decide) (by decide) rfl⟩

theorem strList_contains_of_mem {l : List String} {a : String} (h : a ∈ l) :
    l.contains a = true :=
  List.elem_eq_true_of_mem h

theorem replaceFirst_data_prop (P : Obj → Prop) (p : SnapItem → Bool)
    (d : Obj) (l : List SnapItem) (hl : ∀ it ∈ l, P it.data) (hd : P d) :
    ∀ it ∈ replaceFirst p d l, P it.data := by
  induction l with
  | nil => intro it hit; cases hit
  | cons a t ih =>
    intro it hit
    unfold replaceFirst at hit
    by_cases hp : p a = true
    · rw [if_pos hp] at hit
      rcases List.mem_cons.mp hit with rfl | hm
      · exact hd
      · exact hl it (List.mem_cons_of_mem a hm)
    · rw [if_neg hp] at hit
      rcases List.mem_cons.mp hit with rfl | hm
      · exact hl _ (List.mem_cons_self _ _)
      · exact ih (fun x hx => hl x (List.mem_cons_of_mem a hx)) it hm

theorem mkUpdateRecord_monitored_present (opts : MonitorOptions)
    (key : String) (previous payload : Obj)
    (hincl : opts.includeUnchanged = true)
    (hprev : ∀ f ∈ opts.fields, (previous.get f).isSome = true) :
    ∀ f ∈ opts.fields,
      ((mkUpdateRecord opts key previous
        (committedCurrent opts previous payload)).previous.get f).isSome = true
      ∧ ((mkUpdateRecord opts key previous
        (committedCurrent opts previous payload)).current.get f).isSome
          = true := by
  intro f hf
  have hkeep : shakeKeep opts previous
      (committedCurrent opts previous payload) f = true := by
    unfold shakeKeep
    rw [hincl]
    simp only [Bool.true_or, Bool.and_true]
    exact strList_contains_of_mem hf
  have hcur : ((committedCurrent opts previous payload).get f).isSome
      = true := by
    unfold committedCurrent
    rw [hincl]
    simp only [if_true]
    rw [Obj.get_spread]
    cases hpay : (payload.get f).isSome
    · rw [if_neg (by simp [hpay])]
      exact hprev f hf
    · rw [if_pos rfl]
      exact hpay
  constructor
  · have hp : (mkUpdateRecord opts key previous
        (committedCurrent opts previous payload)).previous
        = previous.filterKeys (shakeKeep opts previous
            (committedCurrent opts previous payload)) := rfl
    rw [hp, Obj.get_filterKeys, if_pos hkeep]
    exact hprev f hf
  · have hc : (mkUpdateRecord opts key previous
        (committedCurrent opts previous payload)).current
        = (committedCurrent opts previous payload).filterKeys
            (shakeKeep opts previous
              (committedCurrent opts previous payload)) := rfl
    rw [hc, Obj.get_filterKeys, if_pos hkeep]
    exact hcur

theorem updateLoop_monitored_present (opts : MonitorOptions) (payload : Obj)
    (ks : List String) (snap : List SnapItem) (acc : List ChangeRecord)
    (hincl : opts.includeUnchanged = true)
    (hsnap : ∀ item ∈ snap, ∀ f ∈ opts.fields,
      (item.data.get f).isSome = true)
    (hacc : ∀ r ∈ acc, ∀ f ∈ opts.fields,
      (r.previous.get f).isSome = true ∧ (r.current.get f).isSome = true) :
    ∀ r ∈ (updateLoop opts payload ks snap acc).1, ∀ f ∈ opts.fields,
      (r.previous.get f).isSome = true ∧ (r.current.get f).isSome = true := by
  induction ks generalizing snap acc with
  | nil => exact hacc
  | cons key rest ih =>
    unfold updateLoop
    cases hf : List.find? (fun it => decide (snapItemKeyStr it = key)) snap with
    | none => exact hacc
    | some item =>
      dsimp only
      have hitem := hsnap item (List.mem_of_find?_eq_some hf)
      by_cases hch : (opts.fields.any fun f =>
          !decide (item.data.get f
            = (committedCurrent opts item.data payload).get f)) = true
      · rw [if_pos hch]
        have hrec := mkUpdateRecord_monitored_present opts key item.data
          payload hincl hitem
        apply ih
        · apply replaceFirst_data_prop
            (fun d => ∀ f ∈ opts.fields, (Obj.get d f).isSome = true) _ _ _
            hsnap
          intro f hf2
          exact (hrec f hf2).1
        · intro r hr f hf2
          rw [List.append_eq, List.mem_append] at hr
          rcases hr with hr | hr
          · exact hacc r hr f hf2
          · rcases List.mem_singleton.mp hr with rfl
            exact hrec f hf2
      · rw [if_neg hch]
        exact ih snap acc hsnap hacc

/-- C9: with `includeUnchanged` set, every Change Record emitted by an
update dispatch carries every monitored field on both `previous` and
`current` — including monitored fields whose value did not change —
provided the captured snapshot holds a value for every monitored field
(which is what the capture fetched). -/
theorem includeUnchanged_reports_all_monitored (opts : MonitorOptions)
    (hookId : Nat) (meta : ActionMeta) (store : Store) (entry : MutEntry)
    (hincl : opts.includeUnchanged = true)
    (hnc : jsEventName meta.event ≠ "create")
    (hlk : store.lookupFp
      (createFingerprint hookId meta.event (metaKeysOf meta)) = some entry)
    (hsnap : ∀ item ∈ shakenSnap opts entry meta.payload, ∀ f ∈ opts.fields,
      (item.data.get f).isSome = true) :
    ∀ call ∈ (actionHandler opts hookId meta store).calls, ∀ r ∈ call,
      r.action = "update" → ∀ f ∈ opts.fields,
        (r.previous.get f).isSome = true ∧ (r.current.get f).isSome = true := by
  intro call hcall r hr hact f hf
  simp only [actionHandler, if_neg hnc, hlk] at hcall
  rw [List.append_eq, List.mem_append] at hcall
  rcases hcall with hdel | hupd
  · -- a delete-block call: all its records have action "delete"
    by_cases hd : strEndsWith meta.event ".items.delete" = true
    · rw [if_pos hd] at hdel
      rcases List.mem_singleton.mp hdel with rfl
      obtain ⟨m, _, rfl⟩ := List.mem_map.mp hr
      exact absurd hact (by simp [mkDeleteRecord])
    · rw [if_neg hd] at hdel
      exact absurd hdel (List.not_mem_nil call)
  · revert hupd
    cases h2 : (updateLoop opts meta.payload (metaKeysOf meta)
        (shakenSnap opts entry meta.payload) []).2 with
    | some err =>
      intro hupd
      simp at hupd
    | none =>
      intro hupd
      by_cases hemp : (updateLoop opts meta.payload (metaKeysOf meta)
          (shakenSnap opts entry meta.payload) []).1.isEmpty
      · simp [hemp] at hupd
      · rw [if_neg (by simp [hemp])] at hupd
        rcases List.mem_singleton.mp hupd with rfl
        exact updateLoop_monitored_present opts meta.payload (metaKeysOf meta)
          (shakenSnap opts entry meta.payload) [] hincl hsnap
          (fun r hr2 => absurd hr2 (List.not_mem_nil r)) r hr f hf

/-- Witness for C9: monitored fields `a`, `b`, only `a` changes, and both
appear on both sides of the emitted record. -/
theorem includeUnchanged_reports_all_monitored_witness :
    (⟨["a", "b"], true, ["create", "update", "delete"], true⟩
        : MonitorOptions).includeUnchanged = true ∧
    jsEventName "shops.items.update" ≠ "create" ∧
    (∀ item ∈ shakenSnap ⟨["a", "b"], true, ["create", "update", "delete"], true⟩
        ⟨0, "shops.items.update", ["5"], ["a", "b"],
          [⟨some "5", [("a", Value.vnum 1), ("b", Value.vnum 9)]⟩]⟩
        [("a", Value.vnum 2)],
      ∀ f ∈ (⟨["a", "b"], true, ["create", "update", "delete"], true⟩
          : MonitorOptions).fields,
        (item.data.get f).isSome = true) ∧
    (∀ call ∈ (actionHandler
        ⟨["a", "b"], true, ["create", "update", "delete"], true⟩ 6
        ⟨"shops.items.update", "shops", [("a", Value.vnum 2)], none,
          some ["5"]⟩
        [(createFingerprint 6 "shops.items.update" ["5"],
          ⟨0, "shops.items.update", ["5"], ["a", "b"],
            [⟨some "5", [("a", Value.vnum 1), ("b", Value.vnum 9)]⟩]⟩)]).calls,
      ∀ r ∈ call, r.action = "update" →
        ∀ f ∈ (⟨["a", "b"], true, ["create", "update", "delete"], true⟩
            : MonitorOptions).fields,
          (r.previous.get f).isSome = true ∧ (r.current.get f).isSome = true) :=
  ⟨rfl, by decide, by decide,
    includeUnchanged_reports_all_monitored
      ⟨["a", "b"], true, ["create", "update", "delete"], true⟩ 6
      ⟨"shops.items.update", "shops", [("a", Value.vnum 2)], none, some ["5"]⟩
      [(createFingerprint 6 "shops.items.update" ["5"],
        ⟨0, "shops.items.update", ["5"], ["a", "b"],
          [⟨some "5", [("a", Value.vnum 1), ("b", Value.vnum 9)]⟩]⟩)]
      ⟨0, "shops.items.update", ["5"], ["a", "b"],
        [⟨some "5", [("a", Value.vnum 1), ("b", Value.vnum 9)]⟩]⟩
      rfl (by decide) rfl (by decide)⟩

theorem actionHandler_absent_calls (opts : MonitorOptions) (hookId : Nat)
    (meta : ActionMeta) (store : Store)
    (hnc : jsEventName meta.event ≠ "create")
    (hlk : store.lookupFp
      (createFingerprint hookId meta.event (metaKeysOf meta)) = none) :
    (actionHandler opts hookId meta store).calls = [] := by
  simp only [actionHandler, if_neg hnc, hlk]

/-- Counterexample to C6 as stated: the sweep is NOT invoked at the start of
every Pre-Commit Capture — it runs at the end, only when the snapshot read
succeeds.  Here the store holds an entry aged 400000 ms (beyond the
5-minute/300000 ms threshold) and an update capture whose read fails leaves
it in place, whereas a sweep at the start of the capture would have removed
it. -/
theorem sweep_skipped_on_read_error_cex :
    (filterCapture ⟨["status"], false, ["create", "update", "delete"], true⟩ 0
      (.obj [("status", Value.vstr "x")])
      ⟨"shops.items.update", "shops", some ["1"], none⟩
      [(⟨9, "other.items.update", ["2"]⟩,
        ⟨0, "other.items.update", ["2"], ["status"], []⟩)]
      400000 (.error "read failed") "id").store.lookupFp
        ⟨9, "other.items.update", ["2"]⟩
      = some ⟨0, "other.items.update", ["2"], ["status"], []⟩
    ∧ 400000 - (0 : Nat) > FIVE_MINUTES :=
  ⟨rfl, by decide⟩

/-- C6 (amended): in every update/delete Pre-Commit Capture whose snapshot
read succeeds, the sweep runs after the new entry is inserted: the capture
propagates no error; afterwards a fingerprint that was bound (post-insert)
to an entry is absent exactly when that entry's age strictly exceeds the
5-minute threshold and is otherwise unchanged; one warning is emitted per
removed entry; and no handler is ever invoked for a swept entry (an
update/delete dispatch recomputing a swept fingerprint against the
resulting store makes no handler call).  When the read fails (or the event
is a create), the sweep does not run at all. -/
theorem sweep_after_successful_capture (opts : MonitorOptions) (hookId : Nat)
    (payload : FilterPayload) (meta : FilterMeta) (store : Store) (now : Nat)
    (items : List Obj) (pk : String)
    (hnodup : (store.map Prod.fst).Nodup)
    (hnc : strEndsWith meta.event ".items.create" = false)
    (hud : strEndsWith meta.event ".items.update" = true ∨
      strEndsWith meta.event ".items.delete" = true) :
    (filterCapture opts hookId payload meta store now (.ok items) pk).error
      = none
    ∧ (∀ fp' e',
        (store.insertFp (captureFp hookId payload meta)
          (captureEntry opts payload meta now items pk)).lookupFp fp'
          = some e' →
        Store.lookupFp
          (filterCapture opts hookId payload meta store now (.ok items)
            pk).store fp'
          = if now - e'.timestamp > FIVE_MINUTES then none else some e')
    ∧ (filterCapture opts hookId payload meta store now (.ok items)
        pk).warnings.length
      = (List.filter (staleAt now)
          (store.insertFp (captureFp hookId payload meta)
            (captureEntry opts payload meta now items pk))).length
    ∧ (∀ fp',
        Store.lookupFp
          (filterCapture opts hookId payload meta store now (.ok items)
            pk).store fp' = none →
        ∀ meta' : ActionMeta, jsEventName meta'.event ≠ "create" →
          createFingerprint hookId meta'.event (metaKeysOf meta') = fp' →
          (actionHandler opts hookId meta'
            (filterCapture opts hookId payload meta store now (.ok items)
              pk).store).calls = []) := by
  have hred : filterCapture opts hookId payload meta store now (.ok items) pk
      = ⟨List.filter (fun pe => !staleAt now pe)
          (store.insertFp (captureFp hookId payload meta)
            (captureEntry opts payload meta now items pk)),
        (List.filter (staleAt now)
          (store.insertFp (captureFp hookId payload meta)
            (captureEntry opts payload meta now items pk))).map
          (fun pe => Warning.removedOld pe.1),
        none⟩ := by
    unfold filterCapture
    rw [if_neg (by simp [hnc]), if_neg (by rcases hud with h | h <;> simp [h])]
  rw [hred]
  refine ⟨rfl, ?_, ?_, ?_⟩
  · intro fp' e' hl'
    exact Store.lookupFp_sweep now _
      (Store.nodup_insertFp store _ _ hnodup) fp' e' hl'
  · rw [List.length_map]
  · intro fp' hnone meta' h1 h2
    apply actionHandler_absent_calls
    · exact h1
    · rw [h2]
      exact hnone

/-- Witness for C6 (amended): an update capture over a store holding one
stale entry (age 400000 ms) with a successful read. -/
theorem sweep_after_successful_capture_witness :
    (([(⟨9, "other.items.update", ["2"]⟩,
        ⟨0, "other.items.update", ["2"], ["status"], []⟩)] : Store).map
          Prod.fst).Nodup
    ∧ strEndsWith "shops.items.update" ".items.create" = false
    ∧ (strEndsWith "shops.items.update" ".items.update" = true ∨
        strEndsWith "shops.items.update" ".items.delete" = true)
    ∧ ((filterCapture ⟨["status"], false, ["create", "update", "delete"], true⟩
          0 (.obj [("status", Value.vstr "y")])
          ⟨"shops.items.update", "shops", some ["1"], none⟩
          [(⟨9, "other.items.update", ["2"]⟩,
            ⟨0, "other.items.update", ["2"], ["status"], []⟩)]
          400000
          (.ok [[("id", Value.vstr "1"), ("status", Value.vstr "x")]])
          "id").error = none
      ∧ (∀ fp' e',
          (Store.insertFp
            [(⟨9, "other.items.update", ["2"]⟩,
              ⟨0, "other.items.update", ["2"], ["status"], []⟩)]
            (captureFp 0 (.obj [("status", Value.vstr "y")])
              ⟨"shops.items.update", "shops", some ["1"], none⟩)
            (captureEntry
              ⟨["status"], false, ["create", "update", "delete"], true⟩
              (.obj [("status", Value.vstr "y")])
              ⟨"shops.items.update", "shops", some ["1"], none⟩ 400000
              [[("id", Value.vstr "1"), ("status", Value.vstr "x")]]
              "id")).lookupFp fp' = some e' →
          Store.lookupFp
            (filterCapture
              ⟨["status"], false, ["create", "update", "delete"], true⟩
              0 (.obj [("status", Value.vstr "y")])
              ⟨"shops.items.update", "shops", some ["1"], none⟩
              [(⟨9, "other.items.update", ["2"]⟩,
                ⟨0, "other.items.update", ["2"], ["status"], []⟩)]
              400000
              (.ok [[("id", Value.vstr "1"), ("status", Value.vstr "x")]])
              "id").store fp'
            = if 400000 - e'.timestamp > FIVE_MINUTES then none else some e')
      ∧ (filterCapture ⟨["status"], false, ["create", "update", "delete"], true⟩
          0 (.obj [("status", Value.vstr "y")])
          ⟨"shops.items.update", "shops", some ["1"], none⟩
          [(⟨9, "other.items.update", ["2"]⟩,
            ⟨0, "other.items.update", ["2"], ["status"], []⟩)]
          400000
          (.ok [[("id", Value.vstr "1"), ("status", Value.vstr "x")]])
          "id").warnings.length
        = (List.filter (staleAt 400000)
            (Store.insertFp
              [(⟨9, "other.items.update", ["2"]⟩,
                ⟨0, "other.items.update", ["2"], ["status"], []⟩)]
              (captureFp 0 (.obj [("status", Value.vstr "y")])
                ⟨"shops.items.update", "shops", some ["1"], none⟩)
              (captureEntry
                ⟨["status"], false, ["create", "update", "delete"], true⟩
                (.obj [("status", Value.vstr "y")])
                ⟨"shops.items.update", "shops", some ["1"], none⟩ 400000
                [[("id", Value.vstr "1"), ("status", Value.vstr "x")]]
                "id"))).length
      ∧ (∀ fp',
          Store.lookupFp
            (filterCapture
              ⟨["status"], false, ["create", "update", "delete"], true⟩
              0 (.obj [("status", Value.vstr "y")])
              ⟨"shops.items.update", "shops", some ["1"], none⟩
              [(⟨9, "other.items.update", ["2"]⟩,
                ⟨0, "other.items.update", ["2"], ["status"], []⟩)]
              400000
              (.ok [[("id", Value.vstr "1"), ("status", Value.vstr "x")]])
              "id").store fp' = none →
          ∀ meta' : ActionMeta, jsEventName meta'.event ≠ "create" →
            createFingerprint 0 meta'.event (metaKeysOf meta') = fp' →
            (actionHandler
              ⟨["status"], false, ["create", "update", "delete"], true⟩ 0
              meta'
              (filterCapture
                ⟨["status"], false, ["create", "update", "delete"], true⟩
                0 (.obj [("status", Value.vstr "y")])
                ⟨"shops.items.update", "shops", some ["1"], none⟩
                [(⟨9, "other.items.update", ["2"]⟩,
                  ⟨0, "other.items.update", ["2"], ["status"], []⟩)]
                400000
                (.ok [[("id", Value.vstr "1"), ("status", Value.vstr "x")]])
                "id").store).calls = [])) :=
  ⟨by decide, by decide, Or.inl (by decide),
    sweep_after_successful_capture
      ⟨["status"], false, ["create", "update", "delete"], true⟩ 0
      (.obj [("status", Value.vstr "y")])
      ⟨"shops.items.update", "shops", some ["1"], none⟩
      [(⟨9, "other.items.update", ["2"]⟩,
        ⟨0, "other.items.update", ["2"], ["status"], []⟩)]
      400000 [[("id", Value.vstr "1"), ("status", Value.vstr "x")]] "id"
      (by decide) (by decide) (Or.inl (by decide))⟩

